import Mathlib

/-!
Verification development for the glua-strings binding: a Lua (gopher-lua)
module exposing Go's `strings` package.  Go strings are modelled as lists of
Unicode scalar values (`List Char`), i.e. the valid-UTF-8 fragment of Go's
byte strings; index-returning routines report byte offsets computed from the
UTF-8 sizes of the characters, matching Go on every valid-UTF-8 input.
Lua numbers (gopher-lua `LNumber`, a float64) are modelled as rationals,
which is exact on every value the claims exercise.
-/

namespace GluaStrings

/-- A Go string: the sequence of Unicode scalar values of a valid-UTF-8
Go byte string. -/
abbrev GoStr := List Char

/-- Literal helper: the `GoStr` of a Lean string literal. -/
def gs (s : String) : GoStr := s.data

/-- A scripting-level fault value raised inside a Lua callback (the payload
of gopher-lua's `error`); only its identity matters to the binding, which
re-raises it unchanged, so it is modelled as an opaque message. -/
structure LuaError where
  msg : String
deriving DecidableEq

/-- Lua type tags, as used by gopher-lua's `TypeError` messages. -/
inductive LTy where
  | string
  | number
  | bool
  | table
  | function
deriving DecidableEq

/-- A fault aborting a binding call: either an argument/return type error
(gopher-lua `TypeError`, raised by the `Check*` helpers; the `Int` is the
stack position checked, `-1` meaning the value on top of the stack), or a
scripting-level fault propagated out of a callback. -/
inductive Fault where
  | argTypeError (n : Int) (ty : LTy)
  | callbackFault (e : LuaError)

/-- gopher-lua dynamic values.  Tables are references into a heap (only the
array part is modelled, which is the only part this module touches); a Lua
function is modelled by its observable behaviour under the one calling
convention the binding uses: called on a single numeric argument in
protected mode with one requested result, it either returns one value or
raises a scripting-level fault. -/
inductive LValue where
  | nil
  | bool (b : Bool)
  | num (q : ℚ)
  | str (s : GoStr)
  | table (id : Nat)
  | func (f : ℚ → Except LuaError LValue)

/-- The array part of a gopher-lua `LTable`. -/
abbrev LTable := List LValue

/-- The table heap: table ids are positions in this list. -/
abbrev Heap := List LTable

/-- The gopher-lua value stack of the running `LState`. -/
abbrev Stack := List LValue

/-- `L.Get(n)` for positive `n`: the n-th argument, `LNil` when absent. -/
def getArg (args : List LValue) (n : Nat) : LValue :=
  args.getD (n - 1) .nil

/-- gopher-lua `LTable.RawGetInt`: array part lookup, 1-based; any other
integer key falls through to the (here empty) hash part and yields nil. -/
def rawGetInt (tb : LTable) (i : Nat) : LValue :=
  if 1 ≤ i ∧ i ≤ tb.length then tb.getD (i - 1) .nil else .nil

/-- gopher-lua `LTable.Len` on a table whose array part has no nil holes
(the only tables this module builds or is given by the claims). -/
def tableLen (tb : LTable) : Nat := tb.length

/-- Truncation of a Lua number toward zero, Go's `int(float64)` conversion
on every value in the exactly-representable range. -/
def truncRat (q : ℚ) : Int := Int.tdiv q.num q.den

/-- Go's `rune(int)` conversion: wrap into signed 32 bits. -/
def wrap32 (n : Int) : Int := (n + 2 ^ 31) % 2 ^ 32 - 2 ^ 31

/-- Whether an integer is a valid Unicode scalar value (Go `utf8.ValidRune`). -/
def validRune (r : Int) : Bool :=
  (0 ≤ r ∧ r < 0xD800) ∨ (0xE000 ≤ r ∧ r < 0x110000)

/-- Decode an integer as a character, `U+FFFD` when it is not a valid scalar
value — the behaviour of Go's `WriteRune`/`string(rune)` encoding. -/
def runeToChar (r : Int) : Char :=
  if 0 ≤ r ∧ r < 0xD800 ∨ 0xE000 ≤ r ∧ r < 0x110000 then
    Char.ofNat r.toNat
  else
    '�'

/-- The Lua number the binding passes for a rune (`lua.LNumber(r)`). -/
def charToNum (c : Char) : ℚ := (c.toNat : ℚ)

/-- gopher-lua's `LNumber.String()` ("%.14g") restricted to the integral
values that actually flow through this module; non-integral numbers never
reach a `String()` call in any claim and are given a placeholder rendering. -/
def numToString (q : ℚ) : GoStr :=
  if q.den = 1 then gs (toString q.num) else gs (toString q.num) ++ gs "?"

/-- gopher-lua's `LValue.String()` (the default `tostring` rendering) for
the value kinds that can sit in a table; table/function addresses are not
observable in this model and are rendered by kind only. -/
def lvToString : LValue → GoStr
  | .nil => gs "nil"
  | .bool b => if b then gs "true" else gs "false"
  | .num q => numToString q
  | .str s => s
  | .table _ => gs "table"
  | .func _ => gs "function"

/-! ### Marshaling layer (glua-strings `Check*` / `ret*` helpers and their
gopher-lua `LState.Check*` building blocks) -/

/-- gopher-lua `L.CheckString(n)`: exact bytes of a string value; a number
is string-coercible (`LVCanConvToString`) and is formatted; anything else
raises `TypeError(n, LTString)`. -/
def checkString (args : List LValue) (n : Nat) : Except Fault GoStr :=
  match getArg args n with
  | .str s => .ok s
  | .num q => .ok (numToString q)
  | _ => .error (.argTypeError n .string)

/-- gopher-lua `L.CheckInt(n)`: a number is converted by `int(lv)`
(truncation toward zero); anything else raises `TypeError(n, LTNumber)`. -/
def checkInt (args : List LValue) (n : Nat) : Except Fault Int :=
  match getArg args n with
  | .num q => .ok (truncRat q)
  | _ => .error (.argTypeError n .number)

/-- gopher-lua `L.CheckFunction(n)`. -/
def checkFunction (args : List LValue) (n : Nat) :
    Except Fault (ℚ → Except LuaError LValue) :=
  match getArg args n with
  | .func f => .ok f
  | _ => .error (.argTypeError n .function)

/-- The loop body of glua-strings `checkStringList`: read `tb.RawGetInt(i)`,
take a string value as-is, and send any other element through its default
`String()` rendering. -/
def readItem (tb : LTable) (i : Nat) : GoStr :=
  match rawGetInt tb i with
  | .str s => s
  | item => lvToString item

/-- glua-strings `checkStringList` (src/strings.go): requires a table, then
iterates `for i := 0; i < tb.Len(); i++`, reading `tb.RawGetInt(i)` — note
the 0-based loop over a 1-based table — via `readItem`. -/
def checkStringList (heap : Heap) (args : List LValue) (n : Nat) :
    Except Fault (List GoStr) :=
  match getArg args n with
  | .table id =>
      let tb := heap.getD id []
      .ok ((List.range (tableLen tb)).map (readItem tb))
  | _ => .error (.argTypeError n .table)

/-- glua-strings `retBool`: push one boolean result. -/
def retBool (heap : Heap) (v : Bool) : Heap × LValue := (heap, .bool v)

/-- glua-strings `retInt`: push `lua.LNumber(v)`. -/
def retInt (heap : Heap) (v : Int) : Heap × LValue := (heap, .num (v : ℚ))

/-- glua-strings `retString`: push one string result. -/
def retString (heap : Heap) (v : GoStr) : Heap × LValue := (heap, .str v)

/-- glua-strings `retStringList`: `L.NewTable()` (a fresh table, here the
next free heap id) then `tb.Append` of each string in order, giving the
strings at consecutive 1-based indices. -/
def retStringList (heap : Heap) (vs : List GoStr) : Heap × LValue :=
  (heap ++ [vs.map LValue.str], .table heap.length)

/-! ### Host routines: Go's `strings` package on the valid-UTF-8 model.
Index results are byte offsets, accumulated from `Char.utf8Size`.  The
Unicode-table-driven case routines (`ToUpper` and friends) are modelled on
their ASCII fast path, identity beyond it; no claim evaluates them outside
ASCII. -/

/-- UTF-8 byte length of a string. -/
def utf8Len (s : GoStr) : Nat := (s.map Char.utf8Size).sum

/-- UTF-8 encoding of one scalar value (Go `utf8.EncodeRune`). -/
def utf8EncodeChar (c : Char) : List Nat :=
  let n := c.toNat
  if n < 0x80 then [n]
  else if n < 0x800 then [0xC0 + n / 0x40, 0x80 + n % 0x40]
  else if n < 0x10000 then
    [0xE0 + n / 0x1000, 0x80 + n / 0x40 % 0x40, 0x80 + n % 0x40]
  else
    [0xF0 + n / 0x40000, 0x80 + n / 0x1000 % 0x40,
     0x80 + n / 0x40 % 0x40, 0x80 + n % 0x40]

/-- The UTF-8 bytes of a string. -/
def toBytes (s : GoStr) : List Nat := (s.map utf8EncodeChar).flatten

/-- First position of an element in a list, or `-1`. -/
def idxNat : List Nat → Nat → Int
  | [], _ => -1
  | b :: bs, x =>
      if b = x then 0 else
        match idxNat bs x with
        | -1 => -1
        | i => i + 1

/-- Char index of the first occurrence of `sub` in the suffix of `s`. -/
def idxOfSubAux (sub : GoStr) : GoStr → Option Nat
  | [] => if sub = [] then some 0 else none
  | c :: cs =>
      if List.isPrefixOf sub (c :: cs) then some 0
      else (idxOfSubAux sub cs).map (· + 1)

/-- Char index of the first occurrence of `sub` in `s`. -/
def idxOfSub (s sub : GoStr) : Option Nat := idxOfSubAux sub s

/-- Char index of the last occurrence of `sub` in `s`. -/
def lastIdxOfSubAux (sub : GoStr) : GoStr → Nat → Option Nat → Option Nat
  | [], i, best => if sub = [] then some i else best
  | c :: cs, i, best =>
      lastIdxOfSubAux sub cs (i + 1)
        (if List.isPrefixOf sub (c :: cs) then some i else best)

/-- First byte index at which the predicate holds (Go's internal
`indexFunc(s, f, true)` given a pure predicate). -/
def indexFuncP (p : Char → Bool) : GoStr → Nat → Int
  | [], _ => -1
  | c :: cs, i => if p c then i else indexFuncP p cs (i + c.utf8Size)

/-- Last byte index at which the predicate holds (Go's internal
`lastIndexFunc(s, f, true)` given a pure predicate; Go walks backwards
decoding the last rune, which on valid UTF-8 yields the byte index of the
last satisfying character). -/
def lastIndexFuncP (p : Char → Bool) : GoStr → Nat → Int → Int
  | [], _, best => best
  | c :: cs, i, best =>
      lastIndexFuncP p cs (i + c.utf8Size) (if p c then (i : Int) else best)

/-- `strings.Index`: byte index of the first occurrence of `sub`. -/
def goIndex (s sub : GoStr) : Int :=
  match idxOfSub s sub with
  | some i => (utf8Len (s.take i) : Int)
  | none => -1

/-- `strings.LastIndex`: byte index of the last occurrence of `sub`. -/
def goLastIndex (s sub : GoStr) : Int :=
  match lastIdxOfSubAux sub s 0 none with
  | some i => (utf8Len (s.take i) : Int)
  | none => -1

/-- `strings.Compare` (byte order equals scalar-value order on UTF-8). -/
def goCompare : GoStr → GoStr → Int
  | [], [] => 0
  | [], _ :: _ => -1
  | _ :: _, [] => 1
  | a :: as, b :: bs => if a < b then -1 else if b < a then 1 else goCompare as bs

/-- `strings.Contains`. -/
def goContains (s sub : GoStr) : Bool := (idxOfSub s sub).isSome

/-- `strings.ContainsAny`. -/
def goContainsAny (s chars : GoStr) : Bool := s.any (chars.contains ·)

/-- `strings.ContainsRune` applied to `rune(r)` for an int `r`. -/
def goContainsRune (s : GoStr) (r : Int) : Bool :=
  let r' := wrap32 r
  if validRune r' then s.any (fun c => (c.toNat : Int) = r') else false

/-- `strings.Count`: non-overlapping occurrences; rune count plus one for
the empty substring. -/
def goCountAux (sub : GoStr) : Nat → GoStr → Int
  | 0, _ => 0
  | fuel + 1, s =>
      match idxOfSub s sub with
      | none => 0
      | some i => 1 + goCountAux sub fuel (s.drop (i + sub.length))

/-- `strings.Count`. -/
def goCount (s sub : GoStr) : Int :=
  if sub = [] then (s.length : Int) + 1 else goCountAux sub (s.length + 1) s

/-- `unicode.ToUpper`, ASCII fragment (identity beyond ASCII). -/
def toUpperChar (c : Char) : Char :=
  if 'a' ≤ c ∧ c ≤ 'z' then Char.ofNat (c.toNat - 32) else c

/-- `unicode.ToLower`, ASCII fragment (identity beyond ASCII). -/
def toLowerChar (c : Char) : Char :=
  if 'A' ≤ c ∧ c ≤ 'Z' then Char.ofNat (c.toNat + 32) else c

/-- `strings.EqualFold`, ASCII simple-fold fragment. -/
def goEqualFold (a b : GoStr) : Bool := a.map toLowerChar = b.map toLowerChar

/-- `unicode.IsSpace`, Latin-1 fragment (the full table's entries below
U+0100), which covers every input in the claims. -/
def isSpaceGo (c : Char) : Bool :=
  [9, 10, 11, 12, 13, 32, 0x85, 0xA0].contains c.toNat

/-- Field accumulation: split at characters where `p` holds, discarding
empty fields, `cur` being the field in progress. -/
def fieldsAux (p : Char → Bool) : GoStr → GoStr → List GoStr
  | [], cur => if cur.isEmpty then [] else [cur]
  | c :: cs, cur =>
      if p c then
        if cur.isEmpty then fieldsAux p cs [] else cur :: fieldsAux p cs []
      else fieldsAux p cs (cur ++ [c])

/-- `strings.Fields`. -/
def goFields (s : GoStr) : List GoStr := fieldsAux isSpaceGo s []

/-- `strings.FieldsFunc` given a pure predicate. -/
def goFieldsFunc (s : GoStr) (p : Char → Bool) : List GoStr := fieldsAux p s []

/-- `strings.HasPrefix`. -/
def goHasPrefix (s p : GoStr) : Bool := List.isPrefixOf p s

/-- `strings.HasSuffix`. -/
def goHasSuffix (s p : GoStr) : Bool := List.isSuffixOf p s

/-- `strings.IndexAny`: byte index of the first char drawn from `chars`. -/
def goIndexAny (s chars : GoStr) : Int := indexFuncP (chars.contains ·) s 0

/-- `strings.IndexByte` applied to `byte(t)`: first position of that byte
in the UTF-8 encoding. -/
def goIndexByte (s : GoStr) (t : Int) : Int := idxNat (toBytes s) (t % 256).toNat

/-- `strings.IndexFunc` given a pure predicate. -/
def goIndexFunc (s : GoStr) (p : Char → Bool) : Int := indexFuncP p s 0

/-- `strings.LastIndexFunc` given a pure predicate. -/
def goLastIndexFunc (s : GoStr) (p : Char → Bool) : Int := lastIndexFuncP p s 0 (-1)

/-- `strings.IndexRune` applied to `rune(t)`: invalid runes yield `-1`
(`utf8.RuneError` then matches the decoded replacement characters, which on
valid UTF-8 are exactly the `U+FFFD` scalars). -/
def goIndexRune (s : GoStr) (t : Int) : Int :=
  let r := wrap32 t
  if validRune r then indexFuncP (fun c => (c.toNat : Int) = r) s 0 else -1

/-- `strings.Join`. -/
def goJoin (elems : List GoStr) (sep : GoStr) : GoStr := List.intercalate sep elems

/-- `strings.LastIndexAny`. -/
def goLastIndexAny (s chars : GoStr) : Int :=
  lastIndexFuncP (chars.contains ·) s 0 (-1)

/-- Last position of an element in a list, or `-1`. -/
def lastIdxNat : List Nat → Nat → Nat → Int → Int
  | [], _, _, best => best
  | b :: bs, x, i, best => lastIdxNat bs x (i + 1) (if b = x then (i : Int) else best)

/-- `strings.LastIndexByte` applied to `byte(t)`. -/
def goLastIndexByte (s : GoStr) (t : Int) : Int :=
  lastIdxNat (toBytes s) (t % 256).toNat 0 (-1)

/-- `strings.Repeat` (the source panics on a negative count; the binding is
never exercised there by any claim, and the model returns the empty
string). -/
def goRepeat (s : GoStr) (n : Int) : GoStr :=
  if n ≤ 0 then [] else (List.replicate n.toNat s).flatten

/-- One round of `strings.Replace`: `k` replacements remain; an empty `old`
matches before every rune and at the end. -/
def replaceAux (old new : GoStr) : Nat → GoStr → Nat → GoStr
  | 0, s, _ => s
  | _, s, 0 => s
  | fuel + 1, s, k + 1 =>
      if old = [] then
        match s with
        | [] => new
        | c :: cs => new ++ [c] ++ replaceAux old new fuel cs k
      else
        match idxOfSub s old with
        | none => s
        | some i => s.take i ++ new ++ replaceAux old new fuel (s.drop (i + old.length)) k

/-- `strings.Replace`. -/
def goReplace (s old new : GoStr) (n : Int) : GoStr :=
  if old = new ∨ n = 0 then s
  else
    let m := goCount s old
    if m = 0 then s
    else
      let k := if n < 0 ∨ m < n then m else n
      replaceAux old new (s.length + 1) s k.toNat

/-- Go's `explode(s, n)`: split into runes, at most `n` pieces, the last
taking the remainder. -/
def explodeAux : GoStr → Nat → List GoStr
  | _, 0 => []
  | s, 1 => [s]
  | [], _ + 2 => []
  | c :: cs, k + 2 => [c] :: explodeAux cs (k + 1)

/-- Go's `explode`. -/
def explode (s : GoStr) (n : Int) : List GoStr :=
  let l : Int := s.length
  explodeAux s (if n < 0 ∨ l < n then l else n).toNat

/-- The split loop of Go's `genSplit`: `k` more separators may be consumed. -/
def genSplitAux (sep : GoStr) (sepSave : Nat) : Nat → GoStr → Nat → List GoStr
  | 0, s, _ => [s]
  | _, s, 0 => [s]
  | fuel + 1, s, k + 1 =>
      match idxOfSub s sep with
      | none => [s]
      | some m => s.take (m + sepSave) :: genSplitAux sep sepSave fuel (s.drop (m + sep.length)) k

/-- Go's `genSplit(s, sep, sepSave, n)`. -/
def genSplit (s sep : GoStr) (sepSave : Nat) (n : Int) : List GoStr :=
  if n = 0 then []
  else if sep = [] then explode s n
  else
    let n' : Int := if n < 0 then goCount s sep + 1 else n
    genSplitAux sep sepSave (s.length + 1) s (n' - 1).toNat

/-- `strings.Split`. -/
def goSplit (s sep : GoStr) : List GoStr := genSplit s sep 0 (-1)

/-- `strings.SplitAfter`. -/
def goSplitAfter (s sep : GoStr) : List GoStr := genSplit s sep sep.length (-1)

/-- `strings.SplitAfterN`. -/
def goSplitAfterN (s sep : GoStr) (n : Int) : List GoStr := genSplit s sep sep.length n

/-- `strings.SplitN`. -/
def goSplitN (s sep : GoStr) (n : Int) : List GoStr := genSplit s sep 0 n

/-- Go's `isSeparator` (word boundary for `Title`), ASCII branch exact;
beyond ASCII the letter/digit tests are dropped and the space test kept,
which agrees on every character the claims use. -/
def isSeparatorGo (c : Char) : Bool :=
  if c.toNat ≤ 0x7F then
    !(('0' ≤ c ∧ c ≤ '9') ∨ ('a' ≤ c ∧ c ≤ 'z') ∨ ('A' ≤ c ∧ c ≤ 'Z') ∨ c = '_')
  else isSpaceGo c

/-- The scan of `strings.Title`: uppercase a character that follows a
separator (the flag starts true). -/
def titleAux : Bool → GoStr → GoStr
  | _, [] => []
  | prevSep, c :: cs => (if prevSep then toUpperChar c else c) :: titleAux (isSeparatorGo c) cs

/-- `strings.Title` (deprecated in Go, still bound by this module). -/
def goTitle (s : GoStr) : GoStr := titleAux true s

/-- `strings.ToLower`, ASCII fragment. -/
def goToLower (s : GoStr) : GoStr := s.map toLowerChar

/-- `strings.ToTitle`, ASCII fragment (title case equals upper case there). -/
def goToTitle (s : GoStr) : GoStr := s.map toUpperChar

/-- `strings.ToUpper`, ASCII fragment. -/
def goToUpper (s : GoStr) : GoStr := s.map toUpperChar

/-- `strings.TrimLeft`. -/
def goTrimLeft (s cutset : GoStr) : GoStr :=
  if s = [] ∨ cutset = [] then s else s.dropWhile (cutset.contains ·)

/-- `strings.TrimRight`. -/
def goTrimRight (s cutset : GoStr) : GoStr :=
  if s = [] ∨ cutset = [] then s else List.rdropWhile (cutset.contains ·) s

/-- `strings.Trim`: Go trims the right side and then the left (its source
composes the two one-sided trims after the emptiness guards). -/
def goTrim (s cutset : GoStr) : GoStr :=
  if s = [] ∨ cutset = [] then s
  else goTrimLeft (goTrimRight s cutset) cutset

/-- `strings.TrimFunc` given a pure predicate. -/
def goTrimFunc (s : GoStr) (p : Char → Bool) : GoStr :=
  List.rdropWhile p (s.dropWhile p)

/-- glua TrimPrefix's host, `strings.TrimPrefix`. -/
def goTrimPre (s pre : GoStr) : GoStr :=
  if List.isPrefixOf pre s then s.drop pre.length else s

/-- `strings.TrimSuffix`. -/
def goTrimSuf (s suf : GoStr) : GoStr :=
  if List.isSuffixOf suf s then s.take (s.length - suf.length) else s

/-- `strings.TrimSpace`. -/
def goTrimSpace (s : GoStr) : GoStr :=
  List.rdropWhile isSpaceGo (s.dropWhile isSpaceGo)

/-- The result shapes a pure (callback-free) handler can produce, before
the final `ret*` marshaling step. -/
inductive Ret where
  | rBool (b : Bool)
  | rInt (n : Int)
  | rStr (s : GoStr)
  | rStrList (vs : List GoStr)

/-- Dispatch of a handler's host-side result to the matching `ret*` helper. -/
def retValue (heap : Heap) : Ret → Heap × LValue
  | .rBool b => retBool heap b
  | .rInt n => retInt heap n
  | .rStr s => retString heap s
  | .rStrList vs => retStringList heap vs

/-! ### The operation registry (`stringsFuncs`), callback-free operations.
Each handler is generic in the bundle of host routines it may delegate to,
mirroring the source's `import strings`; instantiating the bundle with the
models above gives the concrete binding. -/

/-- The host text-processing library as a bundle of routines, one field per
`strings` routine the callback-free handlers call. -/
structure Host where
  compare : GoStr → GoStr → Int
  contains : GoStr → GoStr → Bool
  containsAny : GoStr → GoStr → Bool
  containsRune : GoStr → Int → Bool
  count : GoStr → GoStr → Int
  equalFold : GoStr → GoStr → Bool
  fields : GoStr → List GoStr
  hasPre : GoStr → GoStr → Bool
  hasSuf : GoStr → GoStr → Bool
  index : GoStr → GoStr → Int
  indexAny : GoStr → GoStr → Int
  indexByte : GoStr → Int → Int
  indexRune : GoStr → Int → Int
  join : List GoStr → GoStr → GoStr
  lastIndex : GoStr → GoStr → Int
  lastIndexAny : GoStr → GoStr → Int
  lastIndexByte : GoStr → Int → Int
  repeatS : GoStr → Int → GoStr
  replace : GoStr → GoStr → GoStr → Int → GoStr
  split : GoStr → GoStr → List GoStr
  splitAfter : GoStr → GoStr → List GoStr
  splitAfterN : GoStr → GoStr → Int → List GoStr
  splitN : GoStr → GoStr → Int → List GoStr
  title : GoStr → GoStr
  toLower : GoStr → GoStr
  toTitle : GoStr → GoStr
  toUpper : GoStr → GoStr
  trim : GoStr → GoStr → GoStr
  trimLeft : GoStr → GoStr → GoStr
  trimPre : GoStr → GoStr → GoStr
  trimRight : GoStr → GoStr → GoStr
  trimSpace : GoStr → GoStr
  trimSuf : GoStr → GoStr → GoStr

/-- The actual host: Go's `strings` package as modelled above. -/
def goHost : Host where
  compare := goCompare
  contains := goContains
  containsAny := goContainsAny
  containsRune := goContainsRune
  count := goCount
  equalFold := goEqualFold
  fields := goFields
  hasPre := goHasPrefix
  hasSuf := goHasSuffix
  index := goIndex
  indexAny := goIndexAny
  indexByte := goIndexByte
  indexRune := goIndexRune
  join := goJoin
  lastIndex := goLastIndex
  lastIndexAny := goLastIndexAny
  lastIndexByte := goLastIndexByte
  repeatS := goRepeat
  replace := goReplace
  split := goSplit
  splitAfter := goSplitAfter
  splitAfterN := goSplitAfterN
  splitN := goSplitN
  title := goTitle
  toLower := goToLower
  toTitle := goToTitle
  toUpper := goToUpper
  trim := goTrim
  trimLeft := goTrimLeft
  trimPre := goTrimPre
  trimRight := goTrimRight
  trimSpace := goTrimSpace
  trimSuf := goTrimSuf

/-- The callback-free operations of the registry, by their registry keys. -/
inductive Op where
  | Compare | Contains | ContainsAny | ContainsRune | Count | EqualFold
  | Fields | HasPrefix | HasSuffix | Index | IndexAny | IndexByte
  | IndexRune | Join | LastIndex | LastIndexAny | LastIndexByte
  | Repeat | Replace | Split | SplitAfter | SplitAfterN | SplitN
  | Title | ToLower | ToTitle | ToUpper | Trim | TrimLeft | TrimPrefix
  | TrimRight | TrimSpace | TrimSuffix
deriving DecidableEq

/-- The checking/delegation body of each callback-free handler, exactly the
sequence of `Check*` calls of the source followed by the one host call; the
heap is read only by `Join`'s `checkStringList`. -/
def compute (H : Host) (heap : Heap) (op : Op) (args : List LValue) :
    Except Fault Ret :=
  match op with
  | .Compare => do
      let a ← checkString args 1
      let b ← checkString args 2
      pure (.rInt (H.compare a b))
  | .Contains => do
      let s ← checkString args 1
      let substr ← checkString args 2
      pure (.rBool (H.contains s substr))
  | .ContainsAny => do
      let s ← checkString args 1
      let chars ← checkString args 2
      pure (.rBool (H.containsAny s chars))
  | .ContainsRune => do
      let s ← checkString args 1
      let r ← checkInt args 2
      pure (.rBool (H.containsRune s r))
  | .Count => do
      let s ← checkString args 1
      let substr ← checkString args 2
      pure (.rInt (H.count s substr))
  | .EqualFold => do
      let s ← checkString args 1
      let t ← checkString args 2
      pure (.rBool (H.equalFold s t))
  | .Fields => do
      let s ← checkString args 1
      pure (.rStrList (H.fields s))
  | .HasPrefix => do
      let s ← checkString args 1
      let t ← checkString args 2
      pure (.rBool (H.hasPre s t))
  | .HasSuffix => do
      let s ← checkString args 1
      let t ← checkString args 2
      pure (.rBool (H.hasSuf s t))
  | .Index => do
      let s ← checkString args 1
      let t ← checkString args 2
      pure (.rInt (H.index s t))
  | .IndexAny => do
      let s ← checkString args 1
      let t ← checkString args 2
      pure (.rInt (H.indexAny s t))
  | .IndexByte => do
      let s ← checkString args 1
      let t ← checkInt args 2
      pure (.rInt (H.indexByte s t))
  | .IndexRune => do
      let s ← checkString args 1
      let t ← checkInt args 2
      pure (.rInt (H.indexRune s t))
  | .Join => do
      let s ← checkStringList heap args 1
      let t ← checkString args 2
      pure (.rStr (H.join s t))
  | .LastIndex => do
      let s ← checkString args 1
      let t ← checkString args 2
      pure (.rInt (H.lastIndex s t))
  | .LastIndexAny => do
      let s ← checkString args 1
      let t ← checkString args 2
      pure (.rInt (H.lastIndexAny s t))
  | .LastIndexByte => do
      let s ← checkString args 1
      let t ← checkInt args 2
      pure (.rInt (H.lastIndexByte s t))
  | .Repeat => do
      let s ← checkString args 1
      let t ← checkInt args 2
      pure (.rStr (H.repeatS s t))
  | .Replace => do
      let s ← checkString args 1
      let t ← checkString args 2
      let z ← checkString args 3
      let n ← checkInt args 4
      pure (.rStr (H.replace s t z n))
  | .Split => do
      let s ← checkString args 1
      let t ← checkString args 2
      pure (.rStrList (H.split s t))
  | .SplitAfter => do
      let s ← checkString args 1
      let t ← checkString args 2
      pure (.rStrList (H.splitAfter s t))
  | .SplitAfterN => do
      let s ← checkString args 1
      let t ← checkString args 2
      let n ← checkInt args 3
      pure (.rStrList (H.splitAfterN s t n))
  | .SplitN => do
      let s ← checkString args 1
      let t ← checkString args 2
      let n ← checkInt args 3
      pure (.rStrList (H.splitN s t n))
  | .Title => do
      let s ← checkString args 1
      pure (.rStr (H.title s))
  | .ToLower => do
      let s ← checkString args 1
      pure (.rStr (H.toLower s))
  | .ToTitle => do
      let s ← checkString args 1
      pure (.rStr (H.toTitle s))
  | .ToUpper => do
      let s ← checkString args 1
      pure (.rStr (H.toUpper s))
  | .Trim => do
      let s ← checkString args 1
      let cutset ← checkString args 2
      pure (.rStr (H.trim s cutset))
  | .TrimLeft => do
      let s ← checkString args 1
      let cutset ← checkString args 2
      pure (.rStr (H.trimLeft s cutset))
  | .TrimPrefix => do
      let s ← checkString args 1
      let pre ← checkString args 2
      pure (.rStr (H.trimPre s pre))
  | .TrimRight => do
      let s ← checkString args 1
      let cutset ← checkString args 2
      pure (.rStr (H.trimRight s cutset))
  | .TrimSpace => do
      let s ← checkString args 1
      pure (.rStr (H.trimSpace s))
  | .TrimSuffix => do
      let s ← checkString args 1
      let suf ← checkString args 2
      pure (.rStr (H.trimSuf s suf))

/-- A callback-free registry handler: the checking/delegation body followed
by the result marshaling (`ret*`), which is the only step that can touch
the heap (allocating the fresh result table of the list-returning
operations). -/
def handlerPure (H : Host) (op : Op) (args : List LValue) (heap : Heap) :
    Except Fault (Heap × LValue) :=
  (compute H heap op args).map (retValue heap)

/-! ### Callback operations.  The trampoline performs a protected call of
the Lua closure on `lua.LNumber(r)` with one requested result.  A faulting
protected call leaves the stack as it was (gopher-lua's `PCall` restores
the frame on error) and the binding re-raises the fault (`panic(err)`); a
successful call pushes the single result, which `CheckBool`/`CheckInt`
reads from the top and a deferred `Pop(1)` removes on both the normal and
the type-error exit.  Faulting computations carry the stack at the moment
the fault leaves the handler, so stack balance is part of every result. -/

/-- The semantics of a Lua callback under the binding's calling convention. -/
abbrev Cb := ℚ → Except LuaError LValue

/-- The state a callback operation threads: the value stack and the table
heap. -/
abbrev St := Stack × Heap

/-- glua-strings `callFunc_Rune_ret_Bool`. -/
def callRuneBool (fn : Cb) (c : Char) (st : Stack) :
    Except (Fault × Stack) (Bool × Stack) :=
  match fn (charToNum c) with
  | .error e => .error (.callbackFault e, st)
  | .ok v =>
      let st1 := st ++ [v]
      match v with
      | .bool b => .ok (b, st1.dropLast)
      | _ => .error (.argTypeError (-1) .bool, st1.dropLast)

/-- glua-strings `callFunc_Rune_ret_Rune`: `L.CheckInt(-1)` then `rune(ret)`. -/
def callRuneRune (fn : Cb) (c : Char) (st : Stack) :
    Except (Fault × Stack) (Int × Stack) :=
  match fn (charToNum c) with
  | .error e => .error (.callbackFault e, st)
  | .ok v =>
      let st1 := st ++ [v]
      match v with
      | .num q => .ok (wrap32 (truncRat q), st1.dropLast)
      | _ => .error (.argTypeError (-1) .number, st1.dropLast)

/-- `strings.IndexFunc`'s scan with an effectful predicate: first byte
index where it holds. -/
def indexFuncM (p : Char → Stack → Except (Fault × Stack) (Bool × Stack)) :
    GoStr → Nat → Stack → Except (Fault × Stack) (Int × Stack)
  | [], _, st => .ok (-1, st)
  | c :: cs, i, st =>
      match p c st with
      | .error e => .error e
      | .ok (true, st') => .ok ((i : Int), st')
      | .ok (false, st') => indexFuncM p cs (i + c.utf8Size) st'

/-- `strings.FieldsFunc`'s scan with an effectful predicate; `cur` is the
field in progress. -/
def fieldsFuncM (p : Char → Stack → Except (Fault × Stack) (Bool × Stack)) :
    GoStr → GoStr → Stack → Except (Fault × Stack) (List GoStr × Stack)
  | [], cur, st => .ok (if cur.isEmpty then [] else [cur], st)
  | c :: cs, cur, st =>
      match p c st with
      | .error e => .error e
      | .ok (true, st') =>
          match fieldsFuncM p cs [] st' with
          | .error e => .error e
          | .ok (fs, st'') => .ok (if cur.isEmpty then fs else cur :: fs, st'')
      | .ok (false, st') => fieldsFuncM p cs (cur ++ [c]) st'

/-- `strings.Map`'s scan with an effectful mapping: each rune is replaced
by the returned code point (written back through the UTF-8 encoder, so an
invalid one becomes `U+FFFD`), and a negative one drops the rune. -/
def mapM (m : Char → Stack → Except (Fault × Stack) (Int × Stack)) :
    GoStr → Stack → Except (Fault × Stack) (GoStr × Stack)
  | [], st => .ok ([], st)
  | c :: cs, st =>
      match m c st with
      | .error e => .error e
      | .ok (r, st') =>
          match mapM m cs st' with
          | .error e => .error e
          | .ok (out, st'') =>
              .ok ((if 0 ≤ r then [runeToChar r] else []) ++ out, st'')

/-- `strings.TrimLeftFunc`'s scan with an effectful predicate: drop leading
characters while it holds. -/
def trimLeftFuncM (p : Char → Stack → Except (Fault × Stack) (Bool × Stack)) :
    GoStr → Stack → Except (Fault × Stack) (GoStr × Stack)
  | [], st => .ok ([], st)
  | c :: cs, st =>
      match p c st with
      | .error e => .error e
      | .ok (true, st') => trimLeftFuncM p cs st'
      | .ok (false, st') => .ok (c :: cs, st')

/-- The reversed-list worker for `strings.TrimRightFunc`'s backward scan. -/
def rtrimAux (p : Char → Stack → Except (Fault × Stack) (Bool × Stack)) :
    GoStr → Stack → Except (Fault × Stack) (GoStr × Stack)
  | [], st => .ok ([], st)
  | c :: cs, st =>
      match p c st with
      | .error e => .error e
      | .ok (true, st') => rtrimAux p cs st'
      | .ok (false, st') => .ok (c :: cs, st')

/-- `strings.TrimRightFunc`'s scan: drop trailing characters while the
predicate holds, calling it on the runes from the end leftwards. -/
def trimRightFuncM (p : Char → Stack → Except (Fault × Stack) (Bool × Stack))
    (s : GoStr) (st : Stack) : Except (Fault × Stack) (GoStr × Stack) :=
  match rtrimAux p s.reverse st with
  | .error e => .error e
  | .ok (r, st') => .ok (r.reverse, st')

/-- `strings.TrimFunc`: `TrimRightFunc` after `TrimLeftFunc`. -/
def trimFuncM (p : Char → Stack → Except (Fault × Stack) (Bool × Stack))
    (s : GoStr) (st : Stack) : Except (Fault × Stack) (GoStr × Stack) :=
  match trimLeftFuncM p s st with
  | .error e => .error e
  | .ok (t, st') => trimRightFuncM p t st'

/-- The callback-taking operations of the registry, by their registry keys. -/
inductive FuncOp where
  | FieldsFunc | IndexFunc | LastIndexFunc | Map
  | TrimFunc | TrimLeftFunc | TrimRightFunc
deriving DecidableEq

/-- A callback-taking registry handler, on the full state.  Note that the
source's `"LastIndexFunc"` entry delegates to `strings.IndexFunc`. -/
def runFuncOp (op : FuncOp) (args : List LValue) (st : St) :
    Except (Fault × St) (LValue × St) :=
  match op with
  | .FieldsFunc =>
      match checkString args 1 with
      | .error f => .error (f, st)
      | .ok s =>
      match checkFunction args 2 with
      | .error f => .error (f, st)
      | .ok fn =>
          match fieldsFuncM (callRuneBool fn) s [] st.1 with
          | .error (f, stk) => .error (f, (stk, st.2))
          | .ok (vs, stk) =>
              let r := retStringList st.2 vs
              .ok (r.2, (stk, r.1))
  | .IndexFunc =>
      match checkString args 1 with
      | .error f => .error (f, st)
      | .ok s =>
      match checkFunction args 2 with
      | .error f => .error (f, st)
      | .ok fn =>
          match indexFuncM (callRuneBool fn) s 0 st.1 with
          | .error (f, stk) => .error (f, (stk, st.2))
          | .ok (i, stk) => .ok (.num (i : ℚ), (stk, st.2))
  | .LastIndexFunc =>
      match checkString args 1 with
      | .error f => .error (f, st)
      | .ok s =>
      match checkFunction args 2 with
      | .error f => .error (f, st)
      | .ok fn =>
          match indexFuncM (callRuneBool fn) s 0 st.1 with
          | .error (f, stk) => .error (f, (stk, st.2))
          | .ok (i, stk) => .ok (.num (i : ℚ), (stk, st.2))
  | .Map =>
      match checkFunction args 1 with
      | .error f => .error (f, st)
      | .ok fn =>
      match checkString args 2 with
      | .error f => .error (f, st)
      | .ok s =>
          match mapM (callRuneRune fn) s st.1 with
          | .error (f, stk) => .error (f, (stk, st.2))
          | .ok (r, stk) => .ok (.str r, (stk, st.2))
  | .TrimFunc =>
      match checkString args 1 with
      | .error f => .error (f, st)
      | .ok s =>
      match checkFunction args 2 with
      | .error f => .error (f, st)
      | .ok fn =>
          match trimFuncM (callRuneBool fn) s st.1 with
          | .error (f, stk) => .error (f, (stk, st.2))
          | .ok (r, stk) => .ok (.str r, (stk, st.2))
  | .TrimLeftFunc =>
      match checkString args 1 with
      | .error f => .error (f, st)
      | .ok s =>
      match checkFunction args 2 with
      | .error f => .error (f, st)
      | .ok fn =>
          match trimLeftFuncM (callRuneBool fn) s st.1 with
          | .error (f, stk) => .error (f, (stk, st.2))
          | .ok (r, stk) => .ok (.str r, (stk, st.2))
  | .TrimRightFunc =>
      match checkString args 1 with
      | .error f => .error (f, st)
      | .ok s =>
      match checkFunction args 2 with
      | .error f => .error (f, st)
      | .ok fn =>
          match trimRightFuncM (callRuneBool fn) s st.1 with
          | .error (f, stk) => .error (f, (stk, st.2))
          | .ok (r, stk) => .ok (.str r, (stk, st.2))

/-! ### Argument signatures of the registry entries. -/

/-- The argument kinds a handler checks for. -/
inductive ArgTy where
  | string
  | number
  | table
  | function
deriving DecidableEq

/-- Whether a dynamic value satisfies a checked argument kind (numbers are
string-coercible). -/
def argOk : ArgTy → LValue → Bool
  | .string, .str _ => true
  | .string, .num _ => true
  | .number, .num _ => true
  | .table, .table _ => true
  | .function, .func _ => true
  | _, _ => false

/-- Published signature of each callback-free operation. -/
def sig : Op → List ArgTy
  | .Compare => [.string, .string]
  | .Contains => [.string, .string]
  | .ContainsAny => [.string, .string]
  | .ContainsRune => [.string, .number]
  | .Count => [.string, .string]
  | .EqualFold => [.string, .string]
  | .Fields => [.string]
  | .HasPrefix => [.string, .string]
  | .HasSuffix => [.string, .string]
  | .Index => [.string, .string]
  | .IndexAny => [.string, .string]
  | .IndexByte => [.string, .number]
  | .IndexRune => [.string, .number]
  | .Join => [.table, .string]
  | .LastIndex => [.string, .string]
  | .LastIndexAny => [.string, .string]
  | .LastIndexByte => [.string, .number]
  | .Repeat => [.string, .number]
  | .Replace => [.string, .string, .string, .number]
  | .Split => [.string, .string]
  | .SplitAfter => [.string, .string]
  | .SplitAfterN => [.string, .string, .number]
  | .SplitN => [.string, .string, .number]
  | .Title => [.string]
  | .ToLower => [.string]
  | .ToTitle => [.string]
  | .ToUpper => [.string]
  | .Trim => [.string, .string]
  | .TrimLeft => [.string, .string]
  | .TrimPrefix => [.string, .string]
  | .TrimRight => [.string, .string]
  | .TrimSpace => [.string]
  | .TrimSuffix => [.string, .string]

/-- Published signature of each callback-taking operation (`Map` takes the
mapping first). -/
def sigF : FuncOp → List ArgTy
  | .Map => [.function, .string]
  | _ => [.string, .function]

/-- Sequential argument check from position `n` on. -/
def wellTypedFrom (tys : List ArgTy) (args : List LValue) (n : Nat) : Bool :=
  match tys with
  | [] => true
  | t :: ts => argOk t (getArg args n) && wellTypedFrom ts args (n + 1)

/-- Whether an argument list satisfies a signature. -/
def wellTyped (tys : List ArgTy) (args : List LValue) : Bool :=
  wellTypedFrom tys args 1

/-- The registry `stringsFuncs`: the fixed name-to-handler map registered
at module load and never mutated afterwards (immutable data here). -/
def stringsFuncs : List (String × (Op ⊕ FuncOp)) :=
  [("Compare", .inl .Compare), ("Contains", .inl .Contains),
   ("ContainsAny", .inl .ContainsAny), ("ContainsRune", .inl .ContainsRune),
   ("Count", .inl .Count), ("EqualFold", .inl .EqualFold),
   ("Fields", .inl .Fields), ("FieldsFunc", .inr .FieldsFunc),
   ("HasPrefix", .inl .HasPrefix), ("HasSuffix", .inl .HasSuffix),
   ("Index", .inl .Index), ("IndexAny", .inl .IndexAny),
   ("IndexByte", .inl .IndexByte), ("IndexFunc", .inr .IndexFunc),
   ("IndexRune", .inl .IndexRune), ("Join", .inl .Join),
   ("LastIndex", .inl .LastIndex), ("LastIndexAny", .inl .LastIndexAny),
   ("LastIndexByte", .inl .LastIndexByte), ("LastIndexFunc", .inr .LastIndexFunc),
   ("Map", .inr .Map), ("Repeat", .inl .Repeat), ("Replace", .inl .Replace),
   ("Split", .inl .Split), ("SplitAfter", .inl .SplitAfter),
   ("SplitAfterN", .inl .SplitAfterN), ("SplitN", .inl .SplitN),
   ("Title", .inl .Title), ("ToLower", .inl .ToLower),
   ("ToTitle", .inl .ToTitle), ("ToUpper", .inl .ToUpper),
   ("Trim", .inl .Trim), ("TrimFunc", .inr .TrimFunc),
   ("TrimLeft", .inl .TrimLeft), ("TrimLeftFunc", .inr .TrimLeftFunc),
   ("TrimPrefix", .inl .TrimPrefix), ("TrimRight", .inl .TrimRight),
   ("TrimRightFunc", .inr .TrimRightFunc), ("TrimSpace", .inl .TrimSpace),
   ("TrimSuffix", .inl .TrimSuffix)]

/-- A Lua callback that always raises a scripting-level fault. -/
def cbFail (e : LuaError) : Cb := fun _ => .error e

/-- A Lua callback that always returns the given value. -/
def cbConst (v : LValue) : Cb := fun _ => .ok v

/-- Whether a dynamic value is a boolean. -/
def isBoolV : LValue → Bool
  | .bool _ => true
  | _ => false

/-- Whether a dynamic value is a number. -/
def isNumV : LValue → Bool
  | .num _ => true
  | _ => false

/-- The stack carried by either outcome of an effectful scan step. -/
def resStack : Except (Fault × Stack) (α × Stack) → Stack
  | .ok (_, s) => s
  | .error (_, s) => s

/-- Frame property of a callback operation's outcome relative to the state
it started from: a fault leaves the state exactly as it was; success leaves
the stack as it was and at most appends fresh tables to the heap. -/
def frameOk (st : St) : Except (Fault × St) (LValue × St) → Prop
  | .ok (_, st') => st'.1 = st.1 ∧ st'.2.take st.2.length = st.2
  | .error (_, st') => st' = st

/-- Frame property of a callback-free handler's outcome: on success every
pre-existing heap cell is unchanged (the handler at most appends a fresh
result table). -/
def framePure (heap : Heap) : Except Fault (Heap × LValue) → Prop
  | .ok (heap', _) => heap'.take heap.length = heap
  | .error _ => True

/-! ### Stack balance of the trampoline and of every scan built on it. -/

theorem callRuneBool_resStack (fn : Cb) (c : Char) (st : Stack) :
    resStack (callRuneBool fn c st) = st := by
  unfold callRuneBool
  cases fn (charToNum c) with
  | error e => rfl
  | ok v => cases v <;> simp [resStack, List.dropLast_concat]

theorem callRuneRune_resStack (fn : Cb) (c : Char) (st : Stack) :
    resStack (callRuneRune fn c st) = st := by
  unfold callRuneRune
  cases fn (charToNum c) with
  | error e => rfl
  | ok v => cases v <;> simp [resStack, List.dropLast_concat]

theorem indexFuncM_resStack (p : Char → Stack → Except (Fault × Stack) (Bool × Stack))
    (hp : ∀ c st, resStack (p c st) = st) :
    ∀ (s : GoStr) (i : Nat) (st : Stack), resStack (indexFuncM p s i st) = st := by
  intro s
  induction s with
  | nil => intro i st; rfl
  | cons c cs ih =>
      intro i st
      have h := hp c st
      unfold indexFuncM
      cases hc : p c st with
      | error e => rw [hc] at h; simpa [resStack] using h
      | ok r =>
          rw [hc] at h
          obtain ⟨b, st'⟩ := r
          simp [resStack] at h
          cases b
          · simpa [ih] using h
          · simpa [resStack] using h

theorem fieldsFuncM_resStack (p : Char → Stack → Except (Fault × Stack) (Bool × Stack))
    (hp : ∀ c st, resStack (p c st) = st) :
    ∀ (s : GoStr) (cur : GoStr) (st : Stack), resStack (fieldsFuncM p s cur st) = st := by
  intro s
  induction s with
  | nil => intro cur st; rfl
  | cons c cs ih =>
      intro cur st
      have h := hp c st
      unfold fieldsFuncM
      cases hc : p c st with
      | error e => rw [hc] at h; simpa [resStack] using h
      | ok r =>
          rw [hc] at h
          obtain ⟨b, st'⟩ := r
          simp [resStack] at h
          cases b
          · simpa [ih] using h
          · rw [h]
            have hcont := ih [] st
            cases hr : fieldsFuncM p cs [] st with
            | error e => rw [hr] at hcont; simpa [resStack, hr] using hcont
            | ok r' =>
                rw [hr] at hcont
                obtain ⟨fs, st''⟩ := r'
                simpa [resStack, hr] using hcont

theorem mapM_resStack (m : Char → Stack → Except (Fault × Stack) (Int × Stack))
    (hm : ∀ c st, resStack (m c st) = st) :
    ∀ (s : GoStr) (st : Stack), resStack (mapM m s st) = st := by
  intro s
  induction s with
  | nil => intro st; rfl
  | cons c cs ih =>
      intro st
      have h := hm c st
      unfold mapM
      cases hc : m c st with
      | error e => rw [hc] at h; simpa [resStack] using h
      | ok r =>
          rw [hc] at h
          obtain ⟨v, st'⟩ := r
          simp [resStack] at h
          rw [h]
          have hcont := ih st
          cases hr : mapM m cs st with
          | error e => rw [hr] at hcont; simpa [resStack, hr] using hcont
          | ok r' =>
              rw [hr] at hcont
              obtain ⟨out, st''⟩ := r'
              simpa [resStack, hr] using hcont

theorem trimLeftFuncM_resStack (p : Char → Stack → Except (Fault × Stack) (Bool × Stack))
    (hp : ∀ c st, resStack (p c st) = st) :
    ∀ (s : GoStr) (st : Stack), resStack (trimLeftFuncM p s st) = st := by
  intro s
  induction s with
  | nil => intro st; rfl
  | cons c cs ih =>
      intro st
      have h := hp c st
      unfold trimLeftFuncM
      cases hc : p c st with
      | error e => rw [hc] at h; simpa [resStack] using h
      | ok r =>
          rw [hc] at h
          obtain ⟨b, st'⟩ := r
          simp [resStack] at h
          cases b
          · simpa [resStack] using h
          · simpa [ih] using h

theorem rtrimAux_resStack (p : Char → Stack → Except (Fault × Stack) (Bool × Stack))
    (hp : ∀ c st, resStack (p c st) = st) :
    ∀ (s : GoStr) (st : Stack), resStack (rtrimAux p s st) = st := by
  intro s
  induction s with
  | nil => intro st; rfl
  | cons c cs ih =>
      intro st
      have h := hp c st
      unfold rtrimAux
      cases hc : p c st with
      | error e => rw [hc] at h; simpa [resStack] using h
      | ok r =>
          rw [hc] at h
          obtain ⟨b, st'⟩ := r
          simp [resStack] at h
          cases b
          · simpa [resStack] using h
          · simpa [ih] using h

theorem trimRightFuncM_resStack (p : Char → Stack → Except (Fault × Stack) (Bool × Stack))
    (hp : ∀ c st, resStack (p c st) = st) (s : GoStr) (st : Stack) :
    resStack (trimRightFuncM p s st) = st := by
  have h := rtrimAux_resStack p hp s.reverse st
  unfold trimRightFuncM
  cases hc : rtrimAux p s.reverse st with
  | error e => rw [hc] at h; simpa [resStack] using h
  | ok r =>
      rw [hc] at h
      obtain ⟨t, st'⟩ := r
      simpa [resStack] using h

theorem trimFuncM_resStack (p : Char → Stack → Except (Fault × Stack) (Bool × Stack))
    (hp : ∀ c st, resStack (p c st) = st) (s : GoStr) (st : Stack) :
    resStack (trimFuncM p s st) = st := by
  have h := trimLeftFuncM_resStack p hp s st
  unfold trimFuncM
  cases hc : trimLeftFuncM p s st with
  | error e => rw [hc] at h; simpa [resStack] using h
  | ok r =>
      rw [hc] at h
      obtain ⟨t, st'⟩ := r
      simp [resStack] at h
      rw [h]
      exact trimRightFuncM_resStack p hp t st

/-! ### A first scanned character whose trampoline call faults aborts each
scan with that fault and the entry stack. -/

theorem indexFuncM_firstFail (p : Char → Stack → Except (Fault × Stack) (Bool × Stack))
    (f : Fault) (hp : ∀ c st, p c st = .error (f, st)) (s : GoStr) (hs : s ≠ [])
    (i : Nat) (st : Stack) : indexFuncM p s i st = .error (f, st) := by
  obtain ⟨c, cs, rfl⟩ := List.exists_cons_of_ne_nil hs
  simp [indexFuncM, hp]

theorem fieldsFuncM_firstFail (p : Char → Stack → Except (Fault × Stack) (Bool × Stack))
    (f : Fault) (hp : ∀ c st, p c st = .error (f, st)) (s : GoStr) (hs : s ≠ [])
    (cur : GoStr) (st : Stack) : fieldsFuncM p s cur st = .error (f, st) := by
  obtain ⟨c, cs, rfl⟩ := List.exists_cons_of_ne_nil hs
  simp [fieldsFuncM, hp]

theorem mapM_firstFail (m : Char → Stack → Except (Fault × Stack) (Int × Stack))
    (f : Fault) (hm : ∀ c st, m c st = .error (f, st)) (s : GoStr) (hs : s ≠ [])
    (st : Stack) : mapM m s st = .error (f, st) := by
  obtain ⟨c, cs, rfl⟩ := List.exists_cons_of_ne_nil hs
  simp [mapM, hm]

theorem trimLeftFuncM_firstFail (p : Char → Stack → Except (Fault × Stack) (Bool × Stack))
    (f : Fault) (hp : ∀ c st, p c st = .error (f, st)) (s : GoStr) (hs : s ≠ [])
    (st : Stack) : trimLeftFuncM p s st = .error (f, st) := by
  obtain ⟨c, cs, rfl⟩ := List.exists_cons_of_ne_nil hs
  simp [trimLeftFuncM, hp]

theorem rtrimAux_firstFail (p : Char → Stack → Except (Fault × Stack) (Bool × Stack))
    (f : Fault) (hp : ∀ c st, p c st = .error (f, st)) (s : GoStr) (hs : s ≠ [])
    (st : Stack) : rtrimAux p s st = .error (f, st) := by
  obtain ⟨c, cs, rfl⟩ := List.exists_cons_of_ne_nil hs
  simp [rtrimAux, hp]

theorem trimRightFuncM_firstFail (p : Char → Stack → Except (Fault × Stack) (Bool × Stack))
    (f : Fault) (hp : ∀ c st, p c st = .error (f, st)) (s : GoStr) (hs : s ≠ [])
    (st : Stack) : trimRightFuncM p s st = .error (f, st) := by
  have hrev : s.reverse ≠ [] := by simpa using hs
  unfold trimRightFuncM
  rw [rtrimAux_firstFail p f hp s.reverse hrev st]

theorem trimFuncM_firstFail (p : Char → Stack → Except (Fault × Stack) (Bool × Stack))
    (f : Fault) (hp : ∀ c st, p c st = .error (f, st)) (s : GoStr) (hs : s ≠ [])
    (st : Stack) : trimFuncM p s st = .error (f, st) := by
  unfold trimFuncM
  rw [trimLeftFuncM_firstFail p f hp s hs st]

/-- When every trampoline call of the predicate faults the same way, each
of the six predicate-scanning operations aborts with that fault and its
entry state, given a non-empty subject string. -/
theorem runBoolOps_fail (fn : Cb) (f : Fault)
    (hb : ∀ c st, callRuneBool fn c st = .error (f, st))
    (s : GoStr) (hs : s ≠ []) (st : St) :
    runFuncOp .FieldsFunc [.str s, .func fn] st = .error (f, st) ∧
    runFuncOp .IndexFunc [.str s, .func fn] st = .error (f, st) ∧
    runFuncOp .LastIndexFunc [.str s, .func fn] st = .error (f, st) ∧
    runFuncOp .TrimFunc [.str s, .func fn] st = .error (f, st) ∧
    runFuncOp .TrimLeftFunc [.str s, .func fn] st = .error (f, st) ∧
    runFuncOp .TrimRightFunc [.str s, .func fn] st = .error (f, st) := by
  refine ⟨?_, ?_, ?_, ?_, ?_, ?_⟩ <;>
    simp [runFuncOp, checkString, checkFunction, getArg,
      fieldsFuncM_firstFail _ f hb s hs,
      indexFuncM_firstFail _ f hb s hs,
      trimFuncM_firstFail _ f hb s hs,
      trimLeftFuncM_firstFail _ f hb s hs,
      trimRightFuncM_firstFail _ f hb s hs]

/-- The same for the mapping operation. -/
theorem runMap_fail (fn : Cb) (f : Fault)
    (hr : ∀ c st, callRuneRune fn c st = .error (f, st))
    (s : GoStr) (hs : s ≠ []) (st : St) :
    runFuncOp .Map [.func fn, .str s] st = .error (f, st) := by
  simp [runFuncOp, checkString, checkFunction, getArg,
    mapM_firstFail _ f hr s hs]

/-- A callback whose successful result is not a boolean makes the
trampoline raise `CheckBool`'s type error on the value at the stack top,
after which the deferred pop restores the stack. -/
theorem callRuneBool_nonbool (v : LValue) (hv : isBoolV v = false)
    (c : Char) (st : Stack) :
    callRuneBool (cbConst v) c st = .error (.argTypeError (-1) .bool, st) := by
  cases v <;> simp [isBoolV] at hv ⊢ <;>
    simp [callRuneBool, cbConst, List.dropLast_concat]

/-- A callback whose successful result is not a number makes the trampoline
raise `CheckInt`'s type error on the value at the stack top. -/
theorem callRuneRune_nonnum (v : LValue) (hv : isNumV v = false)
    (c : Char) (st : Stack) :
    callRuneRune (cbConst v) c st = .error (.argTypeError (-1) .number, st) := by
  cases v <;> simp [isNumV] at hv ⊢ <;>
    simp [callRuneRune, cbConst, List.dropLast_concat]

/-! ### The `Check*` helpers succeed exactly on acceptable values and raise
the positioned type error otherwise. -/

theorem checkString_err (args : List LValue) (n : Nat)
    (h : argOk .string (getArg args n) = false) :
    checkString args n = .error (.argTypeError n .string) := by
  unfold checkString
  cases hv : getArg args n <;> simp [argOk, hv] at h ⊢

theorem checkString_ok (args : List LValue) (n : Nat)
    (h : argOk .string (getArg args n) = true) :
    ∃ s, checkString args n = .ok s := by
  unfold checkString
  cases hv : getArg args n <;> simp [argOk, hv] at h ⊢

theorem checkInt_err (args : List LValue) (n : Nat)
    (h : argOk .number (getArg args n) = false) :
    checkInt args n = .error (.argTypeError n .number) := by
  unfold checkInt
  cases hv : getArg args n <;> simp [argOk, hv] at h ⊢

theorem checkInt_ok (args : List LValue) (n : Nat)
    (h : argOk .number (getArg args n) = true) :
    ∃ v, checkInt args n = .ok v := by
  unfold checkInt
  cases hv : getArg args n <;> simp [argOk, hv] at h ⊢

theorem checkFunction_err (args : List LValue) (n : Nat)
    (h : argOk .function (getArg args n) = false) :
    checkFunction args n = .error (.argTypeError n .function) := by
  unfold checkFunction
  cases hv : getArg args n <;> simp [argOk, hv] at h ⊢

theorem checkFunction_ok (args : List LValue) (n : Nat)
    (h : argOk .function (getArg args n) = true) :
    ∃ f, checkFunction args n = .ok f := by
  unfold checkFunction
  cases hv : getArg args n <;> simp [argOk, hv] at h ⊢

theorem checkStringList_err (heap : Heap) (args : List LValue) (n : Nat)
    (h : argOk .table (getArg args n) = false) :
    checkStringList heap args n = .error (.argTypeError n .table) := by
  unfold checkStringList
  cases hv : getArg args n <;> simp [argOk, hv] at h ⊢

theorem checkStringList_ok (heap : Heap) (args : List LValue) (n : Nat)
    (h : argOk .table (getArg args n) = true) :
    ∃ l, checkStringList heap args n = .ok l := by
  unfold checkStringList
  cases hv : getArg args n <;> simp [argOk, hv] at h ⊢

/-! ### A failing check in each handler shape surfaces as the positioned
argument type error of the whole checking body. -/

theorem badChainS (args : List LValue) (k : GoStr → Except Fault Ret)
    (hbad : wellTyped [.string] args = false) :
    ∃ n ty, (checkString args 1 >>= k) = .error (.argTypeError n ty) := by
  simp [wellTyped, wellTypedFrom] at hbad
  exact ⟨1, .string, by rw [checkString_err args 1 hbad]; rfl⟩

theorem badChainSS (args : List LValue)
    (k : GoStr → GoStr → Except Fault Ret)
    (hbad : wellTyped [.string, .string] args = false) :
    ∃ n ty,
      (checkString args 1 >>= fun a => checkString args 2 >>= k a) =
        .error (.argTypeError n ty) := by
  simp [wellTyped, wellTypedFrom] at hbad
  cases h1 : argOk .string (getArg args 1) with
  | false => exact ⟨1, .string, by rw [checkString_err args 1 h1]; rfl⟩
  | true =>
      obtain ⟨s, hs⟩ := checkString_ok args 1 h1
      have h2 := hbad h1
      exact ⟨2, .string, by rw [hs, checkString_err args 2 h2]; rfl⟩

theorem badChainSN (args : List LValue)
    (k : GoStr → Int → Except Fault Ret)
    (hbad : wellTyped [.string, .number] args = false) :
    ∃ n ty,
      (checkString args 1 >>= fun a => checkInt args 2 >>= k a) =
        .error (.argTypeError n ty) := by
  simp [wellTyped, wellTypedFrom] at hbad
  cases h1 : argOk .string (getArg args 1) with
  | false => exact ⟨1, .string, by rw [checkString_err args 1 h1]; rfl⟩
  | true =>
      obtain ⟨s, hs⟩ := checkString_ok args 1 h1
      have h2 := hbad h1
      exact ⟨2, .number, by rw [hs, checkInt_err args 2 h2]; rfl⟩

theorem badChainSSN (args : List LValue)
    (k : GoStr → GoStr → Int → Except Fault Ret)
    (hbad : wellTyped [.string, .string, .number] args = false) :
    ∃ n ty,
      (checkString args 1 >>= fun a =>
        checkString args 2 >>= fun b => checkInt args 3 >>= k a b) =
        .error (.argTypeError n ty) := by
  simp [wellTyped, wellTypedFrom] at hbad
  cases h1 : argOk .string (getArg args 1) with
  | false => exact ⟨1, .string, by rw [checkString_err args 1 h1]; rfl⟩
  | true =>
      obtain ⟨a, ha⟩ := checkString_ok args 1 h1
      cases h2 : argOk .string (getArg args 2) with
      | false => exact ⟨2, .string, by rw [ha, checkString_err args 2 h2]; rfl⟩
      | true =>
          obtain ⟨b, hb⟩ := checkString_ok args 2 h2
          have h3 := hbad h1 h2
          exact ⟨3, .number, by rw [ha, hb, checkInt_err args 3 h3]; rfl⟩

theorem badChainSSSN (args : List LValue)
    (k : GoStr → GoStr → GoStr → Int → Except Fault Ret)
    (hbad : wellTyped [.string, .string, .string, .number] args = false) :
    ∃ n ty,
      (checkString args 1 >>= fun a =>
        checkString args 2 >>= fun b =>
          checkString args 3 >>= fun c => checkInt args 4 >>= k a b c) =
        .error (.argTypeError n ty) := by
  simp [wellTyped, wellTypedFrom] at hbad
  cases h1 : argOk .string (getArg args 1) with
  | false => exact ⟨1, .string, by rw [checkString_err args 1 h1]; rfl⟩
  | true =>
      obtain ⟨a, ha⟩ := checkString_ok args 1 h1
      cases h2 : argOk .string (getArg args 2) with
      | false => exact ⟨2, .string, by rw [ha, checkString_err args 2 h2]; rfl⟩
      | true =>
          obtain ⟨b, hb⟩ := checkString_ok args 2 h2
          cases h3 : argOk .string (getArg args 3) with
          | false => exact ⟨3, .string, by rw [ha, hb, checkString_err args 3 h3]; rfl⟩
          | true =>
              obtain ⟨c, hc⟩ := checkString_ok args 3 h3
              have h4 := hbad h1 h2 h3
              exact ⟨4, .number, by rw [ha, hb, hc, checkInt_err args 4 h4]; rfl⟩

/-- Every callback-free handler satisfies the heap frame property: it
reads but never rewrites existing heap cells, whatever the host bundle. -/
theorem handlerPure_frame (H : Host) (op : Op) (args : List LValue) (heap : Heap) :
    framePure heap (handlerPure H op args heap) := by
  unfold handlerPure
  cases hc : compute H heap op args with
  | error f => simp [Except.map, framePure]
  | ok r =>
      cases r <;>
        simp [Except.map, framePure, retValue, retBool, retInt, retString,
          retStringList, List.take_left, List.take_length]

/-- Every callback operation satisfies the frame property: a fault returns
the entry state unchanged, success preserves the stack and at most appends
a fresh table to the heap. -/
theorem runFuncOp_frame (op : FuncOp) (args : List LValue) (st : St) :
    frameOk st (runFuncOp op args st) := by
  cases op with
  | FieldsFunc =>
      cases h1 : checkString args 1 with
      | error f => simp [runFuncOp, h1, frameOk]
      | ok s =>
          cases h2 : checkFunction args 2 with
          | error f => simp [runFuncOp, h1, h2, frameOk]
          | ok fn =>
              have hres := fieldsFuncM_resStack (callRuneBool fn)
                (callRuneBool_resStack fn) s [] st.1
              cases hr : fieldsFuncM (callRuneBool fn) s [] st.1 with
              | error e =>
                  obtain ⟨f, stk⟩ := e
                  rw [hr] at hres; simp [resStack] at hres
                  simp [runFuncOp, h1, h2, hr, frameOk, hres]
              | ok r =>
                  obtain ⟨vs, stk⟩ := r
                  rw [hr] at hres; simp [resStack] at hres
                  simp [runFuncOp, h1, h2, hr, frameOk, hres, retStringList,
                    List.take_left]
  | IndexFunc =>
      cases h1 : checkString args 1 with
      | error f => simp [runFuncOp, h1, frameOk]
      | ok s =>
          cases h2 : checkFunction args 2 with
          | error f => simp [runFuncOp, h1, h2, frameOk]
          | ok fn =>
              have hres := indexFuncM_resStack (callRuneBool fn)
                (callRuneBool_resStack fn) s 0 st.1
              cases hr : indexFuncM (callRuneBool fn) s 0 st.1 with
              | error e =>
                  obtain ⟨f, stk⟩ := e
                  rw [hr] at hres; simp [resStack] at hres
                  simp [runFuncOp, h1, h2, hr, frameOk, hres]
              | ok r =>
                  obtain ⟨i, stk⟩ := r
                  rw [hr] at hres; simp [resStack] at hres
                  simp [runFuncOp, h1, h2, hr, frameOk, hres, List.take_length]
  | LastIndexFunc =>
      cases h1 : checkString args 1 with
      | error f => simp [runFuncOp, h1, frameOk]
      | ok s =>
          cases h2 : checkFunction args 2 with
          | error f => simp [runFuncOp, h1, h2, frameOk]
          | ok fn =>
              have hres := indexFuncM_resStack (callRuneBool fn)
                (callRuneBool_resStack fn) s 0 st.1
              cases hr : indexFuncM (callRuneBool fn) s 0 st.1 with
              | error e =>
                  obtain ⟨f, stk⟩ := e
                  rw [hr] at hres; simp [resStack] at hres
                  simp [runFuncOp, h1, h2, hr, frameOk, hres]
              | ok r =>
                  obtain ⟨i, stk⟩ := r
                  rw [hr] at hres; simp [resStack] at hres
                  simp [runFuncOp, h1, h2, hr, frameOk, hres, List.take_length]
  | Map =>
      cases h1 : checkFunction args 1 with
      | error f => simp [runFuncOp, h1, frameOk]
      | ok fn =>
          cases h2 : checkString args 2 with
          | error f => simp [runFuncOp, h1, h2, frameOk]
          | ok s =>
              have hres := mapM_resStack (callRuneRune fn)
                (callRuneRune_resStack fn) s st.1
              cases hr : mapM (callRuneRune fn) s st.1 with
              | error e =>
                  obtain ⟨f, stk⟩ := e
                  rw [hr] at hres; simp [resStack] at hres
                  simp [runFuncOp, h1, h2, hr, frameOk, hres]
              | ok r =>
                  obtain ⟨out, stk⟩ := r
                  rw [hr] at hres; simp [resStack] at hres
                  simp [runFuncOp, h1, h2, hr, frameOk, hres, List.take_length]
  | TrimFunc =>
      cases h1 : checkString args 1 with
      | error f => simp [runFuncOp, h1, frameOk]
      | ok s =>
          cases h2 : checkFunction args 2 with
          | error f => simp [runFuncOp, h1, h2, frameOk]
          | ok fn =>
              have hres := trimFuncM_resStack (callRuneBool fn)
                (callRuneBool_resStack fn) s st.1
              cases hr : trimFuncM (callRuneBool fn) s st.1 with
              | error e =>
                  obtain ⟨f, stk⟩ := e
                  rw [hr] at hres; simp [resStack] at hres
                  simp [runFuncOp, h1, h2, hr, frameOk, hres]
              | ok r =>
                  obtain ⟨out, stk⟩ := r
                  rw [hr] at hres; simp [resStack] at hres
                  simp [runFuncOp, h1, h2, hr, frameOk, hres, List.take_length]
  | TrimLeftFunc =>
      cases h1 : checkString args 1 with
      | error f => simp [runFuncOp, h1, frameOk]
      | ok s =>
          cases h2 : checkFunction args 2 with
          | error f => simp [runFuncOp, h1, h2, frameOk]
          | ok fn =>
              have hres := trimLeftFuncM_resStack (callRuneBool fn)
                (callRuneBool_resStack fn) s st.1
              cases hr : trimLeftFuncM (callRuneBool fn) s st.1 with
              | error e =>
                  obtain ⟨f, stk⟩ := e
                  rw [hr] at hres; simp [resStack] at hres
                  simp [runFuncOp, h1, h2, hr, frameOk, hres]
              | ok r =>
                  obtain ⟨out, stk⟩ := r
                  rw [hr] at hres; simp [resStack] at hres
                  simp [runFuncOp, h1, h2, hr, frameOk, hres, List.take_length]
  | TrimRightFunc =>
      cases h1 : checkString args 1 with
      | error f => simp [runFuncOp, h1, frameOk]
      | ok s =>
          cases h2 : checkFunction args 2 with
          | error f => simp [runFuncOp, h1, h2, frameOk]
          | ok fn =>
              have hres := trimRightFuncM_resStack (callRuneBool fn)
                (callRuneBool_resStack fn) s st.1
              cases hr : trimRightFuncM (callRuneBool fn) s st.1 with
              | error e =>
                  obtain ⟨f, stk⟩ := e
                  rw [hr] at hres; simp [resStack] at hres
                  simp [runFuncOp, h1, h2, hr, frameOk, hres]
              | ok r =>
                  obtain ⟨out, stk⟩ := r
                  rw [hr] at hres; simp [resStack] at hres
                  simp [runFuncOp, h1, h2, hr, frameOk, hres, List.take_length]

theorem badChainTS (heap : Heap) (args : List LValue)
    (k : List GoStr → GoStr → Except Fault Ret)
    (hbad : wellTyped [.table, .string] args = false) :
    ∃ n ty,
      (checkStringList heap args 1 >>= fun l => checkString args 2 >>= k l) =
        .error (.argTypeError n ty) := by
  simp [wellTyped, wellTypedFrom] at hbad
  cases h1 : argOk .table (getArg args 1) with
  | false => exact ⟨1, .table, by rw [checkStringList_err heap args 1 h1]; rfl⟩
  | true =>
      obtain ⟨l, hl⟩ := checkStringList_ok heap args 1 h1
      have h2 := hbad h1
      exact ⟨2, .string, by rw [hl, checkString_err args 2 h2]; rfl⟩

/-! ### Reading a table of strings. -/

theorem rawGetInt_map_str (strs : List GoStr) (i : Nat) (h : i < strs.length) :
    rawGetInt (strs.map LValue.str) (i + 1) = .str (strs.getD i []) := by
  have hlt : i < (strs.map LValue.str).length := by simpa using h
  unfold rawGetInt
  rw [if_pos (by simp; omega)]
  simp [List.getD_eq_getElem?_getD, List.getElem?_eq_getElem hlt,
    List.getElem?_eq_getElem h]

theorem mapRange_getD {α : Type} (l : List α) (d : α) :
    ∀ m, m ≤ l.length → (List.range m).map (fun i => l.getD i d) = l.take m := by
  intro m
  induction m with
  | zero => simp
  | succ k ih =>
      intro h
      have hk : k < l.length := by omega
      rw [List.range_succ, List.map_append, ih (by omega), List.take_succ]
      simp [List.getD_eq_getElem?_getD, List.getElem?_eq_getElem hk]

/-- Reading position `i + 1` of a table of strings yields the i-th string. -/
theorem readItem_map_str (strs : List GoStr) (i : Nat) (h : i < strs.length) :
    readItem (strs.map LValue.str) (i + 1) = strs.getD i [] := by
  unfold readItem
  rw [rawGetInt_map_str strs i h]

/-- Reading position `0` of any table of strings yields the rendering of
the absent value, the string "nil". -/
theorem readItem_zero (strs : List GoStr) :
    readItem (strs.map LValue.str) 0 = gs "nil" := by
  simp [readItem, rawGetInt, lvToString]

/-- The read loop of `checkStringList` over positions `1..m` of a table of
strings yields the first `m` strings. -/
theorem readLoop (strs : List GoStr) :
    ∀ m, m ≤ strs.length →
      (List.range m).map (fun i => readItem (strs.map LValue.str) (i + 1)) =
        strs.take m := by
  intro m
  induction m with
  | zero => simp
  | succ k ih =>
      intro h
      have hk : k < strs.length := by omega
      rw [List.range_succ, List.map_append, ih (by omega), List.take_succ]
      simp only [List.map_cons, List.map_nil]
      rw [readItem_map_str strs k hk]
      simp [List.getD_eq_getElem?_getD, List.getElem?_eq_getElem hk]

/-- What `checkStringList` actually reads off a table holding `n ≥ 1`
strings at indices `1..n`: the nil at index 0 (rendered "nil") followed by
the first `n - 1` strings; the string at index `n` is never read. -/
theorem checkStringList_spec (heap : Heap) (args : List LValue) (n id : Nat)
    (strs : List GoStr) (hargs : getArg args n = .table id)
    (htb : heap.getD id [] = strs.map LValue.str) (hne : strs ≠ []) :
    checkStringList heap args n = .ok (gs "nil" :: strs.dropLast) := by
  unfold checkStringList
  rw [hargs]
  simp only [htb, tableLen, List.length_map]
  obtain ⟨m, hm⟩ : ∃ m, strs.length = m + 1 :=
    ⟨strs.length - 1, by cases strs with | nil => exact absurd rfl hne | cons a l => simp⟩
  rw [hm, List.range_succ_eq_map, List.map_cons, List.map_map, readItem_zero]
  have htail : (List.range m).map (readItem (strs.map LValue.str) ∘ Nat.succ) =
      strs.take m := readLoop strs m (by omega)
  rw [htail, List.dropLast_eq_take, hm, Nat.add_sub_cancel]

/-! ## The claims -/

/-- C1: the claim says every operation delegates to the host routine of the
same name, in particular `LastIndexFunc`; the source's `"LastIndexFunc"`
handler instead calls `strings.IndexFunc`, so on `"hello"` with a predicate
matching 'l' it returns the first match (byte index 2) where the host's
`LastIndexFunc` — and the repository's own test — gives the last match
(byte index 3). -/
theorem c1_lastIndexFunc_mismatch :
    runFuncOp .LastIndexFunc
      [.str (gs "hello"), .func (fun q => .ok (.bool (decide (q = 108))))]
      ([], []) = .ok (.num ((2 : Int) : ℚ), ([], [])) ∧
    goLastIndexFunc (gs "hello") (fun c => decide (c = 'l')) = 3 ∧
    goIndexFunc (gs "hello") (fun c => decide (c = 'l')) = 2 ∧
    ((2 : Int) : ℚ) ≠ ((3 : Int) : ℚ) :=
  ⟨rfl, rfl, rfl, by decide⟩

/-- C2: the claim says `Join(Split(s, sep), sep) = s` for clean non-empty
separators; on `s = "a,b"`, `sep = ","` the binding's `Split` builds the
table `{"a","b"}` but `Join`'s `checkStringList` reads indices 0..1,
marshalling `["nil","a"]`, so the round trip returns `"nil,a" ≠ "a,b"`
(the repository's own Join test expects the host behaviour instead). -/
theorem c2_split_join_roundtrip_eval :
    handlerPure goHost .Split [.str (gs "a,b"), .str (gs ",")] [] =
      .ok ([[.str (gs "a"), .str (gs "b")]], .table 0) ∧
    handlerPure goHost .Join [.table 0, .str (gs ",")]
        [[.str (gs "a"), .str (gs "b")]] =
      .ok ([[.str (gs "a"), .str (gs "b")]], .str (gs "nil,a")) ∧
    gs "nil,a" ≠ gs "a,b" :=
  ⟨rfl, rfl, by decide⟩

/-- C3: marshaling a host-side sequence of strings (`retStringList`) builds
a fresh table (the next free heap id) whose elements are exactly the
sequence's strings at consecutive 1-based indices `1..n`, with table length
`n`, and nothing at index 0 or beyond `n` — no element dropped or
coalesced, empty strings included. -/
theorem c3_marshal_string_list (vs : List GoStr) (heap : Heap) :
    retStringList heap vs = (heap ++ [vs.map LValue.str], .table heap.length) ∧
    tableLen (vs.map LValue.str) = vs.length ∧
    (∀ i, i < vs.length →
      rawGetInt (vs.map LValue.str) (i + 1) = .str (vs.getD i [])) ∧
    rawGetInt (vs.map LValue.str) 0 = .nil ∧
    (∀ j, vs.length < j → rawGetInt (vs.map LValue.str) j = .nil) := by
  refine ⟨rfl, by simp [tableLen],
    fun i hi => rawGetInt_map_str vs i hi, by simp [rawGetInt], fun j hj => ?_⟩
  unfold rawGetInt
  rw [if_neg (by simp; omega)]

/-- Witness for C3 at `vs = ["a", ""]`: index 1 holds "a". -/
theorem c3_marshal_string_list_witness :
    rawGetInt ([gs "a", gs ""].map LValue.str) 1 =
      .str ([gs "a", gs ""].getD 0 []) :=
  (c3_marshal_string_list [gs "a", gs ""] []).2.2.1 0 (by decide)

/-- C4: a scripting-level fault raised by the supplied callback during the
scan aborts each of the seven callback-taking operations with that
`CallbackFault` — not swallowed, not defaulted — and the value stack (and
whole state) after the fault equals the state before the call. -/
theorem c4_callback_fault (e : LuaError) (s : GoStr) (st : St) (hs : s ≠ []) :
    runFuncOp .FieldsFunc [.str s, .func (cbFail e)] st =
      .error (.callbackFault e, st) ∧
    runFuncOp .IndexFunc [.str s, .func (cbFail e)] st =
      .error (.callbackFault e, st) ∧
    runFuncOp .LastIndexFunc [.str s, .func (cbFail e)] st =
      .error (.callbackFault e, st) ∧
    runFuncOp .Map [.func (cbFail e), .str s] st =
      .error (.callbackFault e, st) ∧
    runFuncOp .TrimFunc [.str s, .func (cbFail e)] st =
      .error (.callbackFault e, st) ∧
    runFuncOp .TrimLeftFunc [.str s, .func (cbFail e)] st =
      .error (.callbackFault e, st) ∧
    runFuncOp .TrimRightFunc [.str s, .func (cbFail e)] st =
      .error (.callbackFault e, st) := by
  have hb : ∀ c stk, callRuneBool (cbFail e) c stk = .error (.callbackFault e, stk) :=
    fun _ _ => rfl
  have hr : ∀ c stk, callRuneRune (cbFail e) c stk = .error (.callbackFault e, stk) :=
    fun _ _ => rfl
  obtain ⟨h1, h2, h3, h4, h5, h6⟩ := runBoolOps_fail (cbFail e) _ hb s hs st
  exact ⟨h1, h2, h3, runMap_fail (cbFail e) _ hr s hs st, h4, h5, h6⟩

/-- Witness for C4: a faulting predicate aborts `IndexFunc` on "a" with the
fault, leaving the one-entry stack intact. -/
theorem c4_callback_fault_witness :
    runFuncOp .IndexFunc [.str (gs "a"), .func (cbFail ⟨"boom"⟩)] ([.nil], []) =
      .error (.callbackFault ⟨"boom"⟩, ([.nil], [])) :=
  (c4_callback_fault ⟨"boom"⟩ (gs "a") ([.nil], []) (by decide)).2.1

/-- C5 counterexample: the claim says a wrong argument count fails with an
argument type error, but a surplus argument is ignored: `Compare` called
with three strings (arity two) succeeds. -/
theorem c5_surplus_args_accepted :
    [LValue.str (gs "a"), .str (gs "b"), .str (gs "c")].length ≠
      (sig .Compare).length ∧
    handlerPure goHost .Compare
        [.str (gs "a"), .str (gs "b"), .str (gs "c")] [] =
      .ok ([], .num ((-1 : Int) : ℚ)) :=
  ⟨by decide, rfl⟩

/-- C5 (amended): whenever the argument list fails an operation's published
signature — a wrong-typed value at a checked position, or a missing
argument, which reads as nil — the call fails with a positioned
`ArgumentTypeError`, uniformly in the host bundle for the callback-free
operations (so the host routine's behaviour is never consulted) and with
the state returned unchanged for the callback operations; surplus
arguments beyond the signature are ignored, not rejected. -/
theorem c5_argument_errors :
    (∀ (H : Host) (op : Op) (args : List LValue) (heap : Heap),
      wellTyped (sig op) args = false →
      ∃ n ty, handlerPure H op args heap = .error (.argTypeError n ty)) ∧
    (∀ (fop : FuncOp) (args : List LValue) (st : St),
      wellTyped (sigF fop) args = false →
      ∃ n ty, runFuncOp fop args st = .error (.argTypeError n ty, st)) := by
  constructor
  · intro H op args heap hbad
    have hcomp : ∃ n ty, compute H heap op args = .error (.argTypeError n ty) := by
      cases op with
      | Compare => exact badChainSS args _ hbad
      | Contains => exact badChainSS args _ hbad
      | ContainsAny => exact badChainSS args _ hbad
      | ContainsRune => exact badChainSN args _ hbad
      | Count => exact badChainSS args _ hbad
      | EqualFold => exact badChainSS args _ hbad
      | Fields => exact badChainS args _ hbad
      | HasPrefix => exact badChainSS args _ hbad
      | HasSuffix => exact badChainSS args _ hbad
      | Index => exact badChainSS args _ hbad
      | IndexAny => exact badChainSS args _ hbad
      | IndexByte => exact badChainSN args _ hbad
      | IndexRune => exact badChainSN args _ hbad
      | Join => exact badChainTS heap args _ hbad
      | LastIndex => exact badChainSS args _ hbad
      | LastIndexAny => exact badChainSS args _ hbad
      | LastIndexByte => exact badChainSN args _ hbad
      | Repeat => exact badChainSN args _ hbad
      | Replace => exact badChainSSSN args _ hbad
      | Split => exact badChainSS args _ hbad
      | SplitAfter => exact badChainSS args _ hbad
      | SplitAfterN => exact badChainSSN args _ hbad
      | SplitN => exact badChainSSN args _ hbad
      | Title => exact badChainS args _ hbad
      | ToLower => exact badChainS args _ hbad
      | ToTitle => exact badChainS args _ hbad
      | ToUpper => exact badChainS args _ hbad
      | Trim => exact badChainSS args _ hbad
      | TrimLeft => exact badChainSS args _ hbad
      | TrimPrefix => exact badChainSS args _ hbad
      | TrimRight => exact badChainSS args _ hbad
      | TrimSpace => exact badChainS args _ hbad
      | TrimSuffix => exact badChainSS args _ hbad
    obtain ⟨n, ty, h⟩ := hcomp
    exact ⟨n, ty, by unfold handlerPure; rw [h]; rfl⟩
  · intro fop args st hbad
    cases fop <;>
      first
      | (cases h1 : argOk .string (getArg args 1) with
         | false =>
             exact ⟨1, .string, by simp [runFuncOp, checkString_err args 1 h1]⟩
         | true =>
             obtain ⟨s, hs⟩ := checkString_ok args 1 h1
             have h2 : argOk .function (getArg args 2) = false := by
               simp [wellTyped, wellTypedFrom, sigF, h1] at hbad; exact hbad
             exact ⟨2, .function,
               by simp [runFuncOp, hs, checkFunction_err args 2 h2]⟩)
      | (cases h1 : argOk .function (getArg args 1) with
         | false =>
             exact ⟨1, .function, by simp [runFuncOp, checkFunction_err args 1 h1]⟩
         | true =>
             obtain ⟨fn, hfn⟩ := checkFunction_ok args 1 h1
             have h2 : argOk .string (getArg args 2) = false := by
               simp [wellTyped, wellTypedFrom, sigF, h1] at hbad; exact hbad
             exact ⟨2, .string,
               by simp [runFuncOp, hfn, checkString_err args 2 h2]⟩)

/-- Witness for C5 (amended): `Compare` on a boolean first argument fails
with an argument type error. -/
theorem c5_argument_errors_witness :
    wellTyped (sig .Compare) [.bool true] = false ∧
    ∃ n ty, handlerPure goHost .Compare [.bool true] [] =
      .error (.argTypeError n ty) :=
  ⟨rfl, c5_argument_errors.1 goHost .Compare [.bool true] [] rfl⟩

/-- C6: the concrete scenarios of the spec, all evaluated through the
binding's handlers against the modelled host routines. -/
theorem c6_concrete_scenarios :
    handlerPure goHost .ToUpper [.str (gs "abc")] [] =
      .ok ([], .str (gs "ABC")) ∧
    handlerPure goHost .Split [.str (gs "aa,b,,c"), .str (gs ",")] [] =
      .ok ([[.str (gs "aa"), .str (gs "b"), .str (gs ""), .str (gs "c")]],
        .table 0) ∧
    handlerPure goHost .Join [.table 0, .str (gs ",")] [[]] =
      .ok ([[]], .str (gs "")) ∧
    handlerPure goHost .Count [.str (gs "aaaa"), .str (gs "aa")] [] =
      .ok ([], .num ((2 : Int) : ℚ)) ∧
    handlerPure goHost .TrimSpace [.str (gs "  hi  ")] [] =
      .ok ([], .str (gs "hi")) ∧
    runFuncOp .IndexFunc
      [.str (gs "hello123"),
       .func (fun q => .ok (.bool (decide (48 ≤ q ∧ q ≤ 57))))] ([], []) =
      .ok (.num ((5 : Int) : ℚ), ([], [])) := by
  refine ⟨?_, ?_, ?_, ?_, ?_, ?_⟩ <;> rfl

/-- C7: trimming the right cutset then the left cutset equals the two-sided
trim, both at the handler level and for the host routines themselves (Go's
`Trim` composes the one-sided trims behind emptiness guards). -/
theorem c7_trim_decomposition :
    (∀ (s cut : GoStr) (heap : Heap),
      handlerPure goHost .TrimRight [.str s, .str cut] heap =
        .ok (heap, .str (goTrimRight s cut))) ∧
    (∀ (s cut : GoStr) (heap : Heap),
      handlerPure goHost .TrimLeft [.str (goTrimRight s cut), .str cut] heap =
        .ok (heap, .str (goTrimLeft (goTrimRight s cut) cut))) ∧
    (∀ (s cut : GoStr) (heap : Heap),
      handlerPure goHost .Trim [.str s, .str cut] heap =
        .ok (heap, .str (goTrim s cut))) ∧
    (∀ s cut : GoStr, goTrimLeft (goTrimRight s cut) cut = goTrim s cut) := by
  refine ⟨fun s cut heap => rfl, fun s cut heap => rfl, fun s cut heap => rfl,
    fun s cut => ?_⟩
  by_cases hs : s = []
  · subst hs
    by_cases hc : cut = [] <;> simp [goTrim, goTrimLeft, goTrimRight, hc]
  · by_cases hc : cut = []
    · subst hc; simp [goTrim, goTrimLeft, goTrimRight, hs]
    · simp [goTrim, hs, hc]

/-- C8: no operation has effects beyond its returned values: a callback-free
handler can only extend the heap with its fresh result table (existing
cells, including every argument table, are untouched — and this holds for
every host bundle), and a callback operation preserves the value stack and
at most appends a fresh table, returning the state unchanged on a fault;
the registry `stringsFuncs` itself is immutable data. -/
theorem c8_no_side_effects :
    (∀ (H : Host) (op : Op) (args : List LValue) (heap : Heap),
      framePure heap (handlerPure H op args heap)) ∧
    (∀ (fop : FuncOp) (args : List LValue) (st : St),
      frameOk st (runFuncOp fop args st)) :=
  ⟨handlerPure_frame, runFuncOp_frame⟩

/-- C9: on a table of `n ≥ 1` strings at indices `1..n`, the conversion
used by `Join` reads indices `0..n-1`: index 0 is absent and contributes
its default rendering "nil", the string at index `n` is never read, and
`Join` therefore receives the n-element sequence beginning with "nil". -/
theorem c9_join_reads_shifted (heap : Heap) (args : List LValue) (n id : Nat)
    (strs : List GoStr) (sep : GoStr)
    (hargs : getArg args n = .table id)
    (htb : heap.getD id [] = strs.map LValue.str) (hne : strs ≠ []) :
    checkStringList heap args n = .ok (gs "nil" :: strs.dropLast) ∧
    handlerPure goHost .Join [.table id, .str sep] heap =
      .ok (heap, .str (goJoin (gs "nil" :: strs.dropLast) sep)) := by
  have h1 := checkStringList_spec heap args n id strs hargs htb hne
  have h2 := checkStringList_spec heap [.table id, .str sep] 1 id strs rfl htb hne
  refine ⟨h1, ?_⟩
  have h3 : compute goHost heap .Join [.table id, .str sep] =
      .ok (.rStr (goJoin (gs "nil" :: strs.dropLast) sep)) := by
    show (checkStringList heap [.table id, .str sep] 1 >>= fun l =>
      checkString [.table id, .str sep] 2 >>= fun t =>
        pure (Ret.rStr (goHost.join l t))) = _
    rw [h2]; rfl
  unfold handlerPure
  rw [h3]
  rfl

/-- Witness for C9: on the two-string table `{"a","b"}` the conversion
yields `["nil","a"]`. -/
theorem c9_join_reads_shifted_witness :
    checkStringList [[.str (gs "a"), .str (gs "b")]] [.table 0] 1 =
      .ok (gs "nil" :: [gs "a", gs "b"].dropLast) :=
  (c9_join_reads_shifted [[.str (gs "a"), .str (gs "b")]] [.table 0] 1 0
    [gs "a", gs "b"] (gs ",") rfl rfl (by decide)).1

/-- C10: a callback that returns successfully but with any non-boolean
value at a predicate position — numbers and strings included, so no
truthiness coercion — aborts the enclosing operation with the trampoline's
type error; any non-numeric value (booleans included) returned to `Map`'s
code-point position does the same; and a fractional numeric return to
`Map` is truncated toward zero to a code point (97.5 becomes 'a', and
-0.5 becomes code point 0 rather than being floor-ed to -1 and dropped). -/
theorem c10_return_conversion :
    (∀ (v : LValue), isBoolV v = false → ∀ (s : GoStr), s ≠ [] → ∀ (st : St),
      runFuncOp .FieldsFunc [.str s, .func (cbConst v)] st =
        .error (.argTypeError (-1) .bool, st) ∧
      runFuncOp .IndexFunc [.str s, .func (cbConst v)] st =
        .error (.argTypeError (-1) .bool, st) ∧
      runFuncOp .LastIndexFunc [.str s, .func (cbConst v)] st =
        .error (.argTypeError (-1) .bool, st) ∧
      runFuncOp .TrimFunc [.str s, .func (cbConst v)] st =
        .error (.argTypeError (-1) .bool, st) ∧
      runFuncOp .TrimLeftFunc [.str s, .func (cbConst v)] st =
        .error (.argTypeError (-1) .bool, st) ∧
      runFuncOp .TrimRightFunc [.str s, .func (cbConst v)] st =
        .error (.argTypeError (-1) .bool, st)) ∧
    (∀ (w : LValue), isNumV w = false → ∀ (s : GoStr), s ≠ [] → ∀ (st : St),
      runFuncOp .Map [.func (cbConst w), .str s] st =
        .error (.argTypeError (-1) .number, st)) ∧
    runFuncOp .Map
      [.func (cbConst (.num (Rat.mk' 195 2 (by decide) (by decide)))),
       .str (gs "AB")] ([], []) = .ok (.str (gs "aa"), ([], [])) ∧
    runFuncOp .Map
      [.func (cbConst (.num (Rat.mk' (-1) 2 (by decide) (by decide)))),
       .str (gs "A")] ([], []) = .ok (.str [Char.ofNat 0], ([], [])) :=
  ⟨fun v hv s hs st =>
    runBoolOps_fail (cbConst v) _ (callRuneBool_nonbool v hv) s hs st,
   fun w hw s hs st =>
    runMap_fail (cbConst w) _ (callRuneRune_nonnum w hw) s hs st,
   rfl, rfl⟩

/-- Witness for C10: a callback returning the number 1 (truthy in Lua, yet
not a boolean) aborts `IndexFunc` on "a" with the boolean type error, and a
callback returning the boolean true aborts `Map` on "a" with the number
type error. -/
theorem c10_return_conversion_witness :
    (runFuncOp .IndexFunc [.str (gs "a"), .func (cbConst (.num 1))] ([], []) =
      .error (.argTypeError (-1) .bool, ([], []))) ∧
    (runFuncOp .Map [.func (cbConst (.bool true)), .str (gs "a")] ([], []) =
      .error (.argTypeError (-1) .number, ([], []))) :=
  ⟨(c10_return_conversion.1 (.num 1) rfl (gs "a") (by decide) ([], [])).2.1,
   c10_return_conversion.2.1 (.bool true) rfl (gs "a") (by decide) ([], [])⟩

end GluaStrings
